import Mathlib

/-!
Verification of the terps_pico2 frequency-counter firmware core.

Shallow embedding of the edge counter (edge_counter.cpp), the PPS
disciplining filter (pps_cal.cpp), the measurement pipeline
(main.cpp / ads1220.cpp) and the binary frame encoder (usb_cdc.cpp).

Machine integers (uint32_t / uint64_t) are modelled as Nat; subtraction of
monotonic-clock timestamps is Nat subtraction, which agrees with uint64
arithmetic whenever the minuend is not older than the subtrahend (the
monotonic clock guarantees this at every subtraction site in the source).
Narrowing casts that can actually truncate in the source are modelled with
explicit `% 2^w`.  IEEE float values are modelled as exact rationals; every
float operation in the source is a single multiply/divide/add on values far
from overflow, so the rational model tracks the source computation
structure exactly.
-/

set_option allowUnsafeReducibility true
attribute [local semireducible] Rat.mul Rat.inv Rat.add Rat.sub

namespace Terps

/-- terps_mode_t: TERPS_MODE_GATED = 0, TERPS_MODE_RECIP = 1. -/
inductive Mode where
  | gated
  | recip
deriving DecidableEq, Repr

/-- The fields of terps_firmware_config_t used by the modelled subsystems. -/
structure Config where
  mode : Mode
  tau_ms : ℕ
  min_interval_frac : ℚ
  timebase_ppm : ℚ
  adc_gain : ℕ
  avg_window : ℕ
  queue_length : ℕ
  adc_timeout_ms : ℕ
deriving DecidableEq, Repr

/-- terps_default_config from config_default.cpp (modelled fields). -/
def terps_default_config : Config :=
  { mode := Mode.recip
    tau_ms := 100
    min_interval_frac := 1 / 4
    timebase_ppm := 0
    adc_gain := 16
    avg_window := 8
    queue_length := 8
    adc_timeout_ms := 200 }

/-- freq_state_t from edge_counter.cpp (the gate_alarm id, a hardware
handle, is not part of the model; alarm firing is an explicit event). -/
structure FreqState where
  mode : Mode
  active : Bool
  window_open : Bool
  sync_forced : Bool
  tau_ms : ℕ
  pulses : ℕ
  target_edges : ℕ
  raw_edges : ℕ
  glitch_count : ℕ
  min_interval_us : ℕ
  min_interval_frac : ℚ
  freq_estimate_hz : ℚ
  timebase_ppm : ℚ
  start_us : ℕ
  end_us : ℕ
  last_edge_us : ℕ
deriving DecidableEq, Repr

/-- freq_result_t from edge_counter.h. -/
structure freq_result_t where
  mode : Mode
  pulses : ℕ
  raw_pulses : ℕ
  min_interval_us : ℕ
  tau_ms : ℕ
  start_us : ℕ
  end_us : ℕ
  f_hz_x1e4 : ℤ
  f_hz : ℚ
  glitch_count : ℕ
  sync_active : Bool
  timeout : Bool
deriving DecidableEq, Repr

/-- clamp_freq (edge_counter.cpp:46-55). -/
def clamp_freq (value : ℚ) : ℚ :=
  if value < 1 then 1
  else if 1000000 < value then 1000000
  else value

/-- The min-interval derivation of update_min_interval_locked
(edge_counter.cpp:57-70), as a function of the estimate and the fraction.
The (uint32_t) cast of a nonnegative float is truncation, i.e. Nat.floor. -/
def min_interval_of (freq_estimate min_frac : ℚ) : ℕ :=
  let freq := clamp_freq freq_estimate
  let frac := if min_frac ≤ 0 then (1 / 4 : ℚ) else min_frac
  let base_period_us := (1000000 : ℚ) / freq
  let mi := Nat.floor (base_period_us * frac)
  if mi < 1 then 1 else mi

/-- update_min_interval_locked (edge_counter.cpp:57-70). -/
def update_min_interval (s : FreqState) : FreqState :=
  { s with min_interval_us := min_interval_of s.freq_estimate_hz s.min_interval_frac }

/-- reset_state_locked (edge_counter.cpp:72-88). -/
def reset_state (s : FreqState) : FreqState :=
  { s with
    active := false
    window_open := false
    sync_forced := false
    pulses := 0
    raw_edges := 0
    target_edges := 0
    glitch_count := 0
    start_us := 0
    end_us := 0
    last_edge_us := 0 }

/-- enqueue_result_locked (edge_counter.cpp:90-137).  The emitted result
(if any) is returned alongside the post-call state; the drop-oldest queue
insert itself is modelled separately by queue_push. -/
def enqueue_result (s : FreqState) (timeout_flag : Bool) :
    FreqState × Option freq_result_t :=
  if !s.window_open then (reset_state s, none)
  else
    let start_us := s.start_us
    let end_us := if s.end_us ≤ start_us then start_us + 1 else s.end_us
    let elapsed_us := end_us - start_us
    let pulses := s.pulses
    let raw := s.raw_edges
    if pulses = 0 ∨ elapsed_us = 0 then (reset_state s, none)
    else
      let freq_hz := ((pulses : ℚ) * 1000000 / (elapsed_us : ℚ))
        * (1 + s.timebase_ppm * (1 / 1000000))
      let s1 := update_min_interval { s with freq_estimate_hz := freq_hz }
      let result : freq_result_t :=
        { mode := s1.mode
          pulses := pulses
          raw_pulses := raw
          min_interval_us := s1.min_interval_us
          tau_ms := Nat.floor ((elapsed_us : ℚ) / 1000 + 1 / 2)
          start_us := start_us
          end_us := end_us
          f_hz_x1e4 := round (freq_hz * 10000)
          f_hz := freq_hz
          glitch_count := s1.glitch_count
          sync_active := s1.sync_forced
          timeout := timeout_flag }
      (reset_state s1, some result)

/-- compute_target_edges_locked (edge_counter.cpp:139-148). -/
def compute_target_edges (s : FreqState) (tau_ms : ℕ) : FreqState :=
  let freq := clamp_freq s.freq_estimate_hz
  let expected_edges := freq * (tau_ms : ℚ) / 1000
  let edges := Nat.floor (expected_edges + 1 / 2)
  { s with target_edges := if edges < 64 then 64 else edges }

/-- start_window_locked (edge_counter.cpp:163-185).  In Gated mode
start_us is captured from the clock (now); alarm scheduling is a hardware
side effect outside the state model. -/
def start_window (now : ℕ) (s : FreqState) (mode : Mode) (tau_ms : ℕ) : FreqState :=
  let wopen : Bool := mode = Mode.gated
  let start0 : ℕ := if wopen then now else 0
  let s1 :=
    { s with
      mode := mode
      tau_ms := tau_ms
      pulses := 0
      raw_edges := 0
      glitch_count := 0
      last_edge_us := 0
      sync_forced := false
      active := true
      window_open := wopen
      start_us := start0
      end_us := start0 }
  if mode = Mode.recip then compute_target_edges s1 tau_ms else s1

/-- handle_edge_locked (edge_counter.cpp:187-213). -/
def handle_edge (s : FreqState) (timestamp_us : ℕ) :
    FreqState × Option freq_result_t :=
  if !s.active then (s, none)
  else
    let s1 := { s with raw_edges := s.raw_edges + 1 }
    if s1.last_edge_us ≠ 0 ∧ timestamp_us - s1.last_edge_us < s1.min_interval_us then
      ({ s1 with glitch_count := s1.glitch_count + 1 }, none)
    else
      let s2 := { s1 with last_edge_us := timestamp_us }
      let s3 :=
        if !s2.window_open then
          { s2 with window_open := true, start_us := timestamp_us }
        else s2
      let s4 := { s3 with end_us := timestamp_us, pulses := s3.pulses + 1 }
      if s4.mode = Mode.recip ∧ s4.target_edges ≤ s4.pulses then
        enqueue_result s4 false
      else (s4, none)

/-- handle_sync_locked (edge_counter.cpp:215-227). -/
def handle_sync (now : ℕ) (s : FreqState) (level_high : Bool) :
    FreqState × Option freq_result_t :=
  if level_high then
    (start_window now { s with sync_forced := true } s.mode s.tau_ms, none)
  else if !s.active then (s, none)
  else enqueue_result { s with end_us := now } false

/-- gate_alarm_cb (edge_counter.cpp:150-161): the Gated-mode deadline
alarm firing at clock time now. -/
def gate_alarm_cb (now : ℕ) (s : FreqState) : FreqState × Option freq_result_t :=
  if s.active = true ∧ s.mode = Mode.gated then
    enqueue_result { s with end_us := now } true
  else (s, none)

/-- freq_counter_start_window (edge_counter.cpp:291-302): the public
operation re-reads min_interval_frac and timebase_ppm from the init-time
configuration before arming. -/
def freq_counter_start_window (cfg : Config) (mode : Mode) (tau_ms : ℕ)
    (now : ℕ) (s : FreqState) : FreqState :=
  let tau := if tau_ms = 0 then cfg.tau_ms else tau_ms
  start_window now
    { s with min_interval_frac := cfg.min_interval_frac, timebase_ppm := cfg.timebase_ppm }
    mode tau

/-- freq_counter_stop (edge_counter.cpp:304-310). -/
def freq_counter_stop (s : FreqState) : FreqState × Option freq_result_t :=
  let p := enqueue_result s true
  (reset_state p.1, p.2)

/-- freq_counter_update_timebase_ppm (edge_counter.cpp:324-329). -/
def freq_counter_update_timebase_ppm (ppm : ℚ) (s : FreqState) : FreqState :=
  { s with timebase_ppm := ppm }

/-- freq_counter_set_min_interval (edge_counter.cpp:339-345). -/
def freq_counter_set_min_interval (frac : ℚ) (s : FreqState) : FreqState :=
  update_min_interval { s with min_interval_frac := frac }

/-- freq_counter_init (edge_counter.cpp:246-289), state part: memset to
zero, then the initial estimate (30 kHz), fraction, ppm and tau, then one
min-interval update. -/
def freq_counter_init (cfg : Config) : FreqState :=
  update_min_interval
    { mode := Mode.gated
      active := false
      window_open := false
      sync_forced := false
      tau_ms := cfg.tau_ms
      pulses := 0
      target_edges := 0
      raw_edges := 0
      glitch_count := 0
      min_interval_us := 0
      min_interval_frac := if 0 < cfg.min_interval_frac then cfg.min_interval_frac else 1 / 4
      freq_estimate_hz := 30000
      timebase_ppm := cfg.timebase_ppm
      start_us := 0
      end_us := 0
      last_edge_us := 0 }

/-- The external events that drive the edge counter: window arming, a
frequency-input rising edge, a sync level change, the gate alarm firing,
stop, and the two setter operations. -/
inductive EdgeEv where
  | startWin (mode : Mode) (tau_ms : ℕ) (now : ℕ)
  | freqEdge (t : ℕ)
  | syncEv (high : Bool) (now : ℕ)
  | alarmFire (now : ℕ)
  | stopEv
  | ppmEv (ppm : ℚ)
  | fracEv (frac : ℚ)
deriving DecidableEq, Repr

/-- One event step of the edge counter; emitted results are appended to
the output list (each such result is enqueued by the source, under the
drop-oldest policy modelled by queue_push). -/
def edge_step (cfg : Config) (p : FreqState × List freq_result_t) (e : EdgeEv) :
    FreqState × List freq_result_t :=
  match e with
  | EdgeEv.startWin m tau now => (freq_counter_start_window cfg m tau now p.1, p.2)
  | EdgeEv.freqEdge t =>
      let q := handle_edge p.1 t
      (q.1, p.2 ++ q.2.toList)
  | EdgeEv.syncEv h now =>
      let q := handle_sync now p.1 h
      (q.1, p.2 ++ q.2.toList)
  | EdgeEv.alarmFire now =>
      let q := gate_alarm_cb now p.1
      (q.1, p.2 ++ q.2.toList)
  | EdgeEv.stopEv =>
      let q := freq_counter_stop p.1
      (q.1, p.2 ++ q.2.toList)
  | EdgeEv.ppmEv ppm => (freq_counter_update_timebase_ppm ppm p.1, p.2)
  | EdgeEv.fracEv f => (freq_counter_set_min_interval f p.1, p.2)

/-- Run the edge counter from freq_counter_init over an event list,
collecting every emitted result in order. -/
def edge_run (cfg : Config) (evs : List EdgeEv) : FreqState × List freq_result_t :=
  List.foldl (edge_step cfg) (freq_counter_init cfg, []) evs

/-- Flag bits from terps_config.h. -/
def TERPS_FLAG_SYNC_ACTIVE : ℕ := 0x01

/-- ADC-timeout flag bit from terps_config.h. -/
def TERPS_FLAG_ADC_TIMEOUT : ℕ := 0x02

/-- PPS-locked flag bit from terps_config.h. -/
def TERPS_FLAG_PPS_LOCKED : ℕ := 0x04

/-- ADC-saturated flag bit from terps_config.h. -/
def TERPS_FLAG_ADC_SATURATED : ℕ := 0x08

/-- PPS module state from pps_cal.cpp (g_last_edge_us, g_last_tick_us,
g_correction_ppm, g_locked, g_lock_counter); last_edge_us = 0 encodes
"no edge seen yet", exactly as in the source. -/
structure PpsState where
  last_edge_us : ℕ
  last_tick_us : ℕ
  correction_ppm : ℚ
  locked : Bool
  lock_counter : ℕ
deriving DecidableEq, Repr

/-- pps_cal_init (pps_cal.cpp:22-36); now is the clock time at init. -/
def pps_cal_init (now : ℕ) : PpsState :=
  { last_edge_us := 0
    last_tick_us := now
    correction_ppm := 0
    locked := false
    lock_counter := 0 }

/-- The instantaneous interval error (pps_cal.cpp:42-43), in ppm:
(interval − 10⁶) · 10⁶ / 10⁶ where interval = t − prev. -/
def pps_error (prev t : ℕ) : ℚ :=
  (((t - prev : ℕ) : ℚ) - 1000000) * 1000000 / 1000000

/-- pps_cal_on_pps_edge (pps_cal.cpp:38-59).  PPS_ALPHA = 0.2 = 1/5. -/
def pps_cal_on_pps_edge (s : PpsState) (timestamp_us : ℕ) : PpsState :=
  let s1 :=
    if s.last_edge_us ≠ 0 then
      let error_ppm := pps_error s.last_edge_us timestamp_us
      let corr := (1 - 1 / 5) * s.correction_ppm - (1 / 5) * error_ppm
      let cnt :=
        if |error_ppm| < 5 then
          if s.lock_counter < 5 then s.lock_counter + 1 else s.lock_counter
        else
          if 0 < s.lock_counter then s.lock_counter - 1 else s.lock_counter
      { s with
        correction_ppm := corr
        last_tick_us := timestamp_us
        lock_counter := cnt
        locked := decide (3 ≤ cnt) }
    else s
  { s1 with last_edge_us := timestamp_us }

/-- pps_cal_tick (pps_cal.cpp:61-69) at clock time now. -/
def pps_cal_tick (s : PpsState) (now : ℕ) : PpsState :=
  if 3000000 < now - s.last_tick_us then
    { s with locked := false, correction_ppm := 0, lock_counter := 0 }
  else s

/-- pps_cal_status_flags (pps_cal.cpp:81-84). -/
def pps_cal_status_flags (s : PpsState) : ℕ :=
  if s.locked then TERPS_FLAG_PPS_LOCKED else 0

/-- The PPS operations that can follow init: an edge, or a tick. -/
inductive PpsEv where
  | edgeEv (t : ℕ)
  | tickEv (now : ℕ)
deriving DecidableEq, Repr

/-- One PPS operation. -/
def pps_step (s : PpsState) (e : PpsEv) : PpsState :=
  match e with
  | PpsEv.edgeEv t => pps_cal_on_pps_edge s t
  | PpsEv.tickEv now => pps_cal_tick s now

/-- Run the PPS module from pps_cal_init over an operation list. -/
def pps_run (now0 : ℕ) (evs : List PpsEv) : PpsState :=
  List.foldl pps_step (pps_cal_init now0) evs

/-- queue_try_add of a pico SPSC queue of the given depth: fails exactly
when the queue is full. -/
def queue_try_add {α : Type} (depth : ℕ) (q : List α) (x : α) : Option (List α) :=
  if q.length < depth then some (q ++ [x]) else none

/-- The drop-oldest-then-enqueue insert used at edge_counter.cpp:131-135
and main.cpp:178-182: try_add; if full, try_remove one (the oldest), then
try_add again. -/
def queue_push {α : Type} (depth : ℕ) (q : List α) (x : α) : List α :=
  match queue_try_add depth q x with
  | some q2 => q2
  | none =>
      let q1 := q.drop 1
      match queue_try_add depth q1 x with
      | some q2 => q2
      | none => q1

/-- terps_frame_t (usb_cdc.h), modelled fields.  ts_ms, tau_ms, adc_gain,
flags, mode are the unsigned machine values; f_hz_x1e4, diode_uV,
ppm_corr_x1e2 are signed. -/
structure terps_frame_t where
  ts_ms : ℕ
  f_hz_x1e4 : ℤ
  tau_ms : ℕ
  f_hz : ℚ
  mode : ℕ
  diode_uV : ℤ
  adc_gain : ℕ
  flags : ℕ
  ppm_corr : ℚ
  ppm_corr_x1e2 : ℤ
deriving DecidableEq, Repr

/-- The numeric value of terps_mode_t (GATED = 0, RECIP = 1). -/
def mode_num : Mode → ℕ
  | Mode.gated => 0
  | Mode.recip => 1

/-- The (int16_t) narrowing cast of lroundf in main.cpp:168. -/
def i16_wrap (z : ℤ) : ℤ := (z + 32768) % 65536 - 32768

/-- ads1220_read_uV (ads1220.cpp:185-232), hardware abstracted: drdy is
none when DRDY never asserted inside the timeout, some raw for a completed
conversion of the given 24-bit signed code.  Returns the delivered value
(none on timeout, when *value_uV is not written), the new EMA filter state
and the updated flags.  C integer division truncates toward zero, hence
Int.tdiv. -/
def ads1220_read_uV (gain : ℤ) (avg_window : ℕ) (filtered_uV : ℤ)
    (drdy : Option ℤ) (flags_in : ℕ) : Option ℤ × ℤ × ℕ :=
  let flags0 := flags_in &&& 0xF5
  match drdy with
  | none => (none, filtered_uV, flags0 ||| TERPS_FLAG_ADC_TIMEOUT)
  | some raw =>
      let g := if gain ≤ 0 then 1 else gain
      let microvolts := Int.tdiv (raw * 2048000) (g * 8388608)
      let flags1 :=
        if 0x7FFFF0 ≤ raw ∨ raw ≤ -0x7FFFF0 then flags0 ||| TERPS_FLAG_ADC_SATURATED
        else flags0
      if 1 < avg_window then
        let f2 :=
          if filtered_uV = 0 then microvolts
          else filtered_uV + Int.tdiv (microvolts - filtered_uV) (avg_window : ℤ)
        (some f2, f2, flags1)
      else (some microvolts, filtered_uV, flags1)

/-- The frame assembly of process_frequency_result (main.cpp:157-168):
diode is the cache value after the ADC read, flags the accumulated flag
byte, ppm the PPS correction read at frame time.  The (uint32_t) cast of
end_us/1000 and the (uint16_t) cast of tau_ms are explicit truncations. -/
def build_frame (cfg : Config) (freq : freq_result_t) (diode : ℤ) (flags : ℕ)
    (ppm : ℚ) : terps_frame_t :=
  { ts_ms := (freq.end_us / 1000) % 4294967296
    f_hz_x1e4 := freq.f_hz_x1e4
    tau_ms := freq.tau_ms % 65536
    f_hz := freq.f_hz
    mode := mode_num freq.mode
    diode_uV := diode
    adc_gain := cfg.adc_gain
    flags := flags
    ppm_corr := ppm
    ppm_corr_x1e2 := i16_wrap (round (ppm * 100)) }

/-- Pipeline worker state: the last-good ADC cache (g_last_diode_uV), the
ADC EMA filter state (g_filtered_uV), the frame queue and the edge-counter
state rearmed at the end of each iteration. -/
structure PipeSt where
  last_diode_uV : ℤ
  filtered_uV : ℤ
  frame_queue : List terps_frame_t
  edge : FreqState
deriving DecidableEq, Repr

/-- process_frequency_result (main.cpp:134-185): seed flags from
sync_active, read the ADC (updating the cache only on success), OR in the
ADC and PPS flag bits, build and enqueue the frame (drop-oldest), and
rearm the next window with the configured mode and tau. -/
def process_frequency_result (cfg : Config) (freq : freq_result_t)
    (drdy : Option ℤ) (pps_flags : ℕ) (ppm : ℚ) (now : ℕ) (st : PipeSt) : PipeSt :=
  let frame_flags0 := if freq.sync_active then TERPS_FLAG_SYNC_ACTIVE else 0
  let r := ads1220_read_uV (cfg.adc_gain : ℤ) cfg.avg_window st.filtered_uV drdy 0
  let adc_flags := r.2.2
  let new_cache :=
    match r.1 with
    | some v => v
    | none => st.last_diode_uV
  let frame_flags := frame_flags0 ||| adc_flags ||| pps_flags
  let frame := build_frame cfg freq new_cache frame_flags ppm
  { last_diode_uV := new_cache
    filtered_uV := r.2.1
    frame_queue := queue_push cfg.queue_length st.frame_queue frame
    edge := freq_counter_start_window cfg cfg.mode cfg.tau_ms now st.edge }

/-- crc16_ccitt inner loop (usb_cdc.cpp:35-44): xor the byte into the high
half, then eight MSB-first shift steps with polynomial 0x1021, all in
16-bit arithmetic. -/
def crc16_update (crc : ℕ) (b : ℕ) : ℕ :=
  let c0 := (crc ^^^ ((b % 256) <<< 8)) % 65536
  List.foldl
    (fun c _ =>
      if c &&& 0x8000 ≠ 0 then ((c <<< 1) ^^^ 0x1021) % 65536
      else (c <<< 1) % 65536)
    c0 (List.range 8)

/-- crc16_ccitt (usb_cdc.cpp:32-46): init 0xFFFF, no reflection, no
xor-out. -/
def crc16_ccitt (data : List ℕ) : ℕ :=
  List.foldl crc16_update 0xFFFF data

/-- n-byte little-endian encoding of an unsigned value (memcpy of a
little-endian machine integer), truncated to n bytes. -/
def le_bytes : ℕ → ℕ → List ℕ
  | 0, _ => []
  | n + 1, v => v % 256 :: le_bytes n (v / 256)

/-- n-byte little-endian twos-complement encoding of a signed value. -/
def int_le_bytes (n : ℕ) (v : ℤ) : List ℕ :=
  le_bytes n (v % ((2 : ℤ) ^ (8 * n))).toNat

/-- The 19-byte binary payload of usb_cdc_send_frame (usb_cdc.cpp:81-95),
fields memcpy-ed little-endian in source order. -/
def frame_payload (f : terps_frame_t) : List ℕ :=
  le_bytes 4 f.ts_ms ++ int_le_bytes 4 f.f_hz_x1e4 ++ le_bytes 2 f.tau_ms ++
    int_le_bytes 4 f.diode_uV ++ [f.adc_gain % 256, f.flags % 256] ++
    int_le_bytes 2 f.ppm_corr_x1e2 ++ [f.mode % 256]

/-- The byte stream written by the binary branch of usb_cdc_send_frame
(usb_cdc.cpp:97-109): header 0x55 0xAA len, payload, CRC little-endian. -/
def usb_cdc_send_frame_binary (f : terps_frame_t) : List ℕ :=
  let payload := frame_payload f
  [0x55, 0xAA, payload.length] ++ payload ++ le_bytes 2 (crc16_ccitt payload)

/-- The S5 frame of the spec: ts_ms=12345, f_hz_x1e4=987654321,
tau_ms=100, diode_uV=-12345, adc_gain=16, flags=0x05, ppm_corr_x1e2=-42,
mode=1 (float mirrors, which the binary payload omits, are zero). -/
def s5_frame : terps_frame_t :=
  { ts_ms := 12345
    f_hz_x1e4 := 987654321
    tau_ms := 100
    f_hz := 0
    mode := 1
    diode_uV := -12345
    adc_gain := 16
    flags := 5
    ppm_corr := 0
    ppm_corr_x1e2 := -42 }

/-- A concrete FreqResult used in witnesses. -/
def default_freq_result : freq_result_t :=
  { mode := Mode.recip
    pulses := 1000
    raw_pulses := 1000
    min_interval_us := 25
    tau_ms := 100
    start_us := 1000
    end_us := 101000
    f_hz_x1e4 := 100000000
    f_hz := 10000
    glitch_count := 0
    sync_active := false
    timeout := false }

/-- A concrete pipeline state used in witnesses. -/
def pipe_st0 : PipeSt :=
  { last_diode_uV := 0
    filtered_uV := 0
    frame_queue := []
    edge := freq_counter_init terps_default_config }

/-- The S4 scenario of the spec: a Reciprocal window armed, sync rising
at t = 1000, two frequency edges, sync falling at t = 1300. -/
def c1_events : List EdgeEv :=
  [EdgeEv.startWin Mode.recip 100 500, EdgeEv.syncEv true 1000,
    EdgeEv.freqEdge 1100, EdgeEv.freqEdge 1200, EdgeEv.syncEv false 1300]

/-- Three Gated windows closed by sync-falling edges; each emission raises
the running estimate, shrinking min_interval_us to 1, until the third
window counts 3 pulses over an elapsed time of 2 us. -/
def c2_events : List EdgeEv :=
  [EdgeEv.startWin Mode.gated 100 1000,
    EdgeEv.freqEdge 1008, EdgeEv.freqEdge 1016, EdgeEv.syncEv false 1017,
    EdgeEv.startWin Mode.gated 100 2000,
    EdgeEv.freqEdge 2002, EdgeEv.freqEdge 2004, EdgeEv.syncEv false 2005,
    EdgeEv.startWin Mode.gated 100 3000,
    EdgeEv.freqEdge 3000, EdgeEv.freqEdge 3001, EdgeEv.freqEdge 3002,
    EdgeEv.syncEv false 3002]

/-- A Gated window with one pulse, closed by a sync falling edge; used as
a concrete emitted result in witnesses. -/
def c5_events : List EdgeEv :=
  [EdgeEv.startWin Mode.gated 100 1000, EdgeEv.freqEdge 1500,
    EdgeEv.syncEv false 2000]

/-- The result emitted by c5_events. -/
def c5_result : freq_result_t :=
  { mode := Mode.gated
    pulses := 1
    raw_pulses := 1
    min_interval_us := 250
    tau_ms := 1
    start_us := 1000
    end_us := 2000
    f_hz_x1e4 := 10000000
    f_hz := 1000
    glitch_count := 0
    sync_active := false
    timeout := false }

/-- A mid-window state used in the C2 witness: one pulse counted over an
elapsed window of 10 us. -/
def c2_witness_state : FreqState :=
  { mode := Mode.gated
    active := true
    window_open := true
    sync_forced := false
    tau_ms := 100
    pulses := 1
    target_edges := 0
    raw_edges := 1
    glitch_count := 0
    min_interval_us := 8
    min_interval_frac := 1 / 4
    freq_estimate_hz := 30000
    timebase_ppm := 0
    start_us := 0
    end_us := 10
    last_edge_us := 10 }

/-- The state and result produced by emitting from c2_witness_state. -/
def c2_witness_after : FreqState :=
  { mode := Mode.gated
    active := false
    window_open := false
    sync_forced := false
    tau_ms := 100
    pulses := 0
    target_edges := 0
    raw_edges := 0
    glitch_count := 0
    min_interval_us := 2
    min_interval_frac := 1 / 4
    freq_estimate_hz := 100000
    timebase_ppm := 0
    start_us := 0
    end_us := 0
    last_edge_us := 0 }

/-- A PPS state with one edge recorded at t = 1 000 000, used in
witnesses. -/
def pps_witness_state : PpsState :=
  { last_edge_us := 1000000
    last_tick_us := 1000000
    correction_ppm := 0
    locked := false
    lock_counter := 0 }

/-- The result emitted from c2_witness_state. -/
def c2_witness_result : freq_result_t :=
  { mode := Mode.gated
    pulses := 1
    raw_pulses := 1
    min_interval_us := 2
    tau_ms := 0
    start_us := 0
    end_us := 10
    f_hz_x1e4 := 1000000000
    f_hz := 100000
    glitch_count := 0
    sync_active := false
    timeout := false }

/-- The deglitch-and-count fold: the state evolution of handle_edge_locked
over a stream of edge timestamps within one armed window. -/
def deglitch_run (s : FreqState) (stream : List ℕ) : FreqState :=
  List.foldl (fun st t => (handle_edge st t).1) s stream

/-- A freshly armed Gated window (start_window on the init state) with a
given deglitch min-interval installed. -/
def armed_gated (now m tau : ℕ) : FreqState :=
  start_window now
    { freq_counter_init terps_default_config with min_interval_us := m }
    Mode.gated tau

/-! Helper lemmas follow. -/

theorem le_bytes_length (n v : ℕ) : (le_bytes n v).length = n := by
  induction n generalizing v with
  | zero => rfl
  | succ k ih => simp [le_bytes, ih]

theorem frame_payload_length (f : terps_frame_t) : (frame_payload f).length = 19 := by
  simp [frame_payload, int_le_bytes, le_bytes_length]

theorem clamp_freq_bounds (v : ℚ) : 1 ≤ clamp_freq v ∧ clamp_freq v ≤ 1000000 := by
  unfold clamp_freq
  split_ifs with h1 h2
  · norm_num
  · norm_num
  · constructor <;> linarith

theorem clamp_freq_idem (v : ℚ) : clamp_freq (clamp_freq v) = clamp_freq v := by
  unfold clamp_freq
  split_ifs <;> first | rfl | linarith

theorem enqueue_result_some_fields (s : FreqState) (tf : Bool) (s2 : FreqState)
    (r : freq_result_t) (h : enqueue_result s tf = (s2, some r)) :
    r.start_us = s.start_us ∧
    r.end_us = (if s.end_us ≤ s.start_us then s.start_us + 1 else s.end_us) ∧
    r.pulses = s.pulses ∧ 1 ≤ s.pulses ∧
    r.raw_pulses = s.raw_edges ∧ r.glitch_count = s.glitch_count ∧
    r.mode = s.mode ∧ r.sync_active = s.sync_forced ∧ r.timeout = tf ∧
    s2.freq_estimate_hz = r.f_hz ∧
    s2.min_interval_us = min_interval_of r.f_hz s.min_interval_frac := by
  unfold enqueue_result at h
  dsimp only at h
  split at h
  next hw => simp at h
  next hw =>
    split at h
    next hz =>
      split at h
      next hp => simp at h
      next hp =>
        rw [Prod.mk.injEq, Option.some.injEq] at h
        obtain ⟨hs2, hr⟩ := h
        subst hs2
        subst hr
        exact ⟨rfl, by rw [if_pos hz], rfl, by omega, rfl, rfl, rfl, rfl, rfl, rfl, rfl⟩
    next hz =>
      split at h
      next hp => simp at h
      next hp =>
        push_neg at hp
        rw [Prod.mk.injEq, Option.some.injEq] at h
        obtain ⟨hs2, hr⟩ := h
        subst hs2
        subst hr
        exact ⟨rfl, by rw [if_neg hz], rfl, by omega, rfl, rfl, rfl, rfl, rfl, rfl, rfl⟩

/-- The pps lock invariant: counter in [0, 5] and locked iff counter >= 3. -/
def PpsInv (s : PpsState) : Prop :=
  s.lock_counter ≤ 5 ∧ (s.locked = true ↔ 3 ≤ s.lock_counter)

theorem pps_step_inv (s : PpsState) (e : PpsEv) (h : PpsInv s) :
    PpsInv (pps_step s e) := by
  obtain ⟨h1, h2⟩ := h
  cases e with
  | edgeEv t =>
      unfold pps_step pps_cal_on_pps_edge
      dsimp only
      split
      next hne =>
        constructor
        · dsimp only
          split_ifs <;> omega
        · simp
      next hne => exact ⟨h1, h2⟩
  | tickEv now =>
      unfold pps_step pps_cal_tick
      dsimp only
      by_cases hc : 3000000 < now - s.last_tick_us
      · rw [if_pos hc]
        exact ⟨by simp, by simp⟩
      · rw [if_neg hc]
        exact ⟨h1, h2⟩

theorem pps_run_inv (now0 : ℕ) (evs : List PpsEv) : PpsInv (pps_run now0 evs) := by
  unfold pps_run
  have aux : ∀ (l : List PpsEv) (s : PpsState), PpsInv s →
      PpsInv (List.foldl pps_step s l) := by
    intro l
    induction l with
    | nil => intro s hs; exact hs
    | cons e l ih =>
        intro s hs
        exact ih (pps_step s e) (pps_step_inv s e hs)
  refine aux evs (pps_cal_init now0) ?_
  simp [PpsInv, pps_cal_init]

/-- Per-window counting invariant. -/
def EmitInv (s : FreqState) : Prop := s.raw_edges = s.pulses + s.glitch_count

/-- Properties of every enqueued FreqResult. -/
def GoodR (r : freq_result_t) : Prop :=
  r.start_us < r.end_us ∧ 1 ≤ r.pulses ∧ r.pulses ≤ r.raw_pulses ∧
    r.glitch_count = r.raw_pulses - r.pulses

theorem reset_state_inv (s : FreqState) : EmitInv (reset_state s) := by
  simp [EmitInv, reset_state]

theorem enqueue_fst_inv (s : FreqState) (tf : Bool) :
    EmitInv (enqueue_result s tf).1 := by
  unfold enqueue_result
  dsimp only
  split
  · exact reset_state_inv s
  · split
    · split
      · exact reset_state_inv s
      · exact reset_state_inv _
    · split
      · exact reset_state_inv s
      · exact reset_state_inv _

theorem enqueue_pair (s : FreqState) (tf : Bool) (h : EmitInv s) :
    EmitInv (enqueue_result s tf).1 ∧
      ∀ r ∈ (enqueue_result s tf).2.toList, GoodR r := by
  refine ⟨enqueue_fst_inv s tf, ?_⟩
  intro r hr
  rw [Option.mem_toList, Option.mem_def] at hr
  have h2 : enqueue_result s tf = ((enqueue_result s tf).1, some r) := by
    rw [← hr]
  obtain ⟨e1, e2, e3, e4, e5, e6, -, -, -, -, -⟩ :=
    enqueue_result_some_fields s tf _ r h2
  unfold EmitInv at h
  refine ⟨?_, by omega, by omega, by omega⟩
  by_cases hc : s.end_us ≤ s.start_us <;> simp [hc] at e2 <;> omega

theorem start_window_emitinv (now : ℕ) (s : FreqState) (m : Mode) (tau : ℕ) :
    EmitInv (start_window now s m tau) := by
  unfold start_window compute_target_edges
  dsimp only
  split <;> simp [EmitInv]

theorem handle_edge_pair (s : FreqState) (t : ℕ) (h : EmitInv s) :
    EmitInv (handle_edge s t).1 ∧
      ∀ r ∈ (handle_edge s t).2.toList, GoodR r := by
  unfold EmitInv at h
  unfold handle_edge
  dsimp only
  split
  · exact ⟨h, by simp⟩
  · split
    next hc =>
      refine ⟨?_, by simp⟩
      simp only [EmitInv]
      omega
    next hc =>
      split
      next hw =>
        split
        next hcc => exact enqueue_pair _ false (by simp only [EmitInv]; omega)
        next hcc => exact ⟨by simp only [EmitInv]; omega, by simp⟩
      next hw =>
        split
        next hcc => exact enqueue_pair _ false (by simp only [EmitInv]; omega)
        next hcc => exact ⟨by simp only [EmitInv]; omega, by simp⟩

theorem edge_step_preserves (cfg : Config) (p : FreqState × List freq_result_t)
    (e : EdgeEv) (h1 : EmitInv p.1) (h2 : ∀ r ∈ p.2, GoodR r) :
    EmitInv (edge_step cfg p e).1 ∧ ∀ r ∈ (edge_step cfg p e).2, GoodR r := by
  cases e with
  | startWin m tau now =>
      exact ⟨start_window_emitinv _ _ _ _, h2⟩
  | freqEdge t =>
      obtain ⟨g1, g2⟩ := handle_edge_pair p.1 t h1
      refine ⟨g1, ?_⟩
      intro r hr
      simp only [edge_step, List.mem_append] at hr
      rcases hr with hr | hr
      · exact h2 r hr
      · exact g2 r hr
  | syncEv hi now =>
      have key : EmitInv (handle_sync now p.1 hi).1 ∧
          ∀ r ∈ (handle_sync now p.1 hi).2.toList, GoodR r := by
        unfold handle_sync
        split
        · exact ⟨start_window_emitinv _ _ _ _, by simp⟩
        · split
          · exact ⟨h1, by simp⟩
          · exact enqueue_pair _ false (by simpa [EmitInv] using h1)
      obtain ⟨g1, g2⟩ := key
      refine ⟨g1, ?_⟩
      intro r hr
      simp only [edge_step, List.mem_append] at hr
      rcases hr with hr | hr
      · exact h2 r hr
      · exact g2 r hr
  | alarmFire now =>
      have key : EmitInv (gate_alarm_cb now p.1).1 ∧
          ∀ r ∈ (gate_alarm_cb now p.1).2.toList, GoodR r := by
        unfold gate_alarm_cb
        split
        · exact enqueue_pair _ true (by simpa [EmitInv] using h1)
        · exact ⟨h1, by simp⟩
      obtain ⟨g1, g2⟩ := key
      refine ⟨g1, ?_⟩
      intro r hr
      simp only [edge_step, List.mem_append] at hr
      rcases hr with hr | hr
      · exact h2 r hr
      · exact g2 r hr
  | stopEv =>
      obtain ⟨g1, g2⟩ := enqueue_pair p.1 true h1
      refine ⟨reset_state_inv _, ?_⟩
      intro r hr
      simp only [edge_step, freq_counter_stop, List.mem_append] at hr
      rcases hr with hr | hr
      · exact h2 r hr
      · exact g2 r hr
  | ppmEv ppm => exact ⟨by simpa [EmitInv, edge_step,
      freq_counter_update_timebase_ppm] using h1, h2⟩
  | fracEv f =>
      refine ⟨?_, h2⟩
      simp only [edge_step, freq_counter_set_min_interval, update_min_interval]
      simpa [EmitInv] using h1

theorem edge_run_good (cfg : Config) (evs : List EdgeEv) :
    EmitInv (edge_run cfg evs).1 ∧ ∀ r ∈ (edge_run cfg evs).2, GoodR r := by
  unfold edge_run
  have aux : ∀ (l : List EdgeEv) (p : FreqState × List freq_result_t),
      EmitInv p.1 → (∀ r ∈ p.2, GoodR r) →
      EmitInv (List.foldl (edge_step cfg) p l).1 ∧
        ∀ r ∈ (List.foldl (edge_step cfg) p l).2, GoodR r := by
    intro l
    induction l with
    | nil => intro p hp1 hp2; exact ⟨hp1, hp2⟩
    | cons e l ih =>
        intro p hp1 hp2
        obtain ⟨g1, g2⟩ := edge_step_preserves cfg p e hp1 hp2
        exact ih (edge_step cfg p e) g1 g2
  refine aux evs (freq_counter_init cfg, []) ?_ (by simp)
  simp [EmitInv, freq_counter_init, update_min_interval]

theorem start_window_config_fields (cfg : Config) (m : Mode) (tau now : ℕ)
    (s : FreqState) :
    (freq_counter_start_window cfg m tau now s).min_interval_frac = cfg.min_interval_frac ∧
      (freq_counter_start_window cfg m tau now s).timebase_ppm = cfg.timebase_ppm := by
  unfold freq_counter_start_window start_window compute_target_edges
  split <;> split <;> simp

theorem queue_push_full {α : Type} (d : ℕ) (q : List α) (x : α) (h : q.length = d)
    (hd : 1 ≤ d) : queue_push d q x = q.drop 1 ++ [x] := by
  unfold queue_push queue_try_add
  have h1 : ¬q.length < d := by omega
  have h2 : q.length - 1 < d := by omega
  simp [h1, h2, List.length_drop]

theorem queue_push_nonfull {α : Type} (d : ℕ) (q : List α) (x : α) (h : q.length < d) :
    queue_push d q x = q ++ [x] := by
  unfold queue_push queue_try_add
  simp [h]

theorem queue_push_length {α : Type} (d : ℕ) (q : List α) (x : α) (hd : 1 ≤ d)
    (hq : q.length ≤ d) : (queue_push d q x).length ≤ d := by
  by_cases h : q.length < d
  · rw [queue_push_nonfull d q x h]
    simp
    omega
  · have he : q.length = d := by omega
    rw [queue_push_full d q x he hd]
    simp
    omega

theorem queue_fold_drop {α : Type} (d : ℕ) (hd : 1 ≤ d) :
    ∀ (xs q : List α), q.length ≤ d →
      List.foldl (queue_push d) q xs = (q ++ xs).drop ((q ++ xs).length - d) := by
  intro xs
  induction xs with
  | nil =>
      intro q hq
      have h0 : q.length - d = 0 := by omega
      simp [h0]
  | cons x xs ih =>
      intro q hq
      rw [List.foldl_cons,
        ih (queue_push d q x) (queue_push_length d q x hd hq)]
      by_cases h : q.length < d
      · rw [queue_push_nonfull d q x h]
        have : (q ++ [x]) ++ xs = q ++ x :: xs := by simp
        rw [this]
      · have he : q.length = d := by omega
        rw [queue_push_full d q x he hd]
        have hql : 1 ≤ q.length := by omega
        have hsplit : q.drop 1 ++ [x] ++ xs = (q ++ x :: xs).drop 1 := by
          rw [List.drop_append_of_le_length hql]
          simp
        rw [hsplit, List.drop_drop]
        congr 1
        simp
        omega

theorem handle_edge_gated (s : FreqState) (t : ℕ) (ha : s.active = true)
    (hw : s.window_open = true) (hm : s.mode = Mode.gated) :
    (handle_edge s t).1 =
      if s.last_edge_us ≠ 0 ∧ t - s.last_edge_us < s.min_interval_us then
        { s with raw_edges := s.raw_edges + 1, glitch_count := s.glitch_count + 1 }
      else
        { s with
          raw_edges := s.raw_edges + 1
          last_edge_us := t
          end_us := t
          pulses := s.pulses + 1 } := by
  unfold handle_edge
  dsimp only
  rw [ha, hw]
  simp only [Bool.not_true, Bool.false_eq_true, if_false]
  split
  next hc => rfl
  next hc =>
    simp only [hm]
    rfl

theorem armed_gated_fields (now m tau : ℕ) :
    (armed_gated now m tau).mode = Mode.gated ∧
    (armed_gated now m tau).active = true ∧
    (armed_gated now m tau).window_open = true ∧
    (armed_gated now m tau).min_interval_us = m ∧
    (armed_gated now m tau).pulses = 0 ∧
    (armed_gated now m tau).raw_edges = 0 ∧
    (armed_gated now m tau).glitch_count = 0 ∧
    (armed_gated now m tau).last_edge_us = 0 := by
  simp [armed_gated, start_window, freq_counter_init, update_min_interval]

theorem min_interval_of_mono (est f1 f2 : ℚ) (h1 : 0 < f1) (h12 : f1 ≤ f2) :
    min_interval_of est f1 ≤ min_interval_of est f2 := by
  unfold min_interval_of
  dsimp only
  rw [if_neg (by linarith : ¬f1 ≤ 0), if_neg (by linarith : ¬f2 ≤ 0)]
  have hclamp : 0 < clamp_freq est := lt_of_lt_of_le one_pos (clamp_freq_bounds est).1
  have hbase : 0 ≤ (1000000 : ℚ) / clamp_freq est :=
    le_of_lt (div_pos (by norm_num) hclamp)
  have hfloor : Nat.floor ((1000000 : ℚ) / clamp_freq est * f1) ≤
      Nat.floor ((1000000 : ℚ) / clamp_freq est * f2) :=
    Nat.floor_mono (mul_le_mul_of_nonneg_left h12 hbase)
  split_ifs <;> omega

theorem deglitch_mono_core (θ Θ : ℕ) (hθΘ : θ ≤ Θ) :
    ∀ (stream : List ℕ), List.Pairwise (fun x y => x < y) stream →
    ∀ (a b : FreqState),
      a.active = true → b.active = true →
      a.window_open = true → b.window_open = true →
      a.mode = Mode.gated → b.mode = Mode.gated →
      a.min_interval_us = θ → b.min_interval_us = Θ →
      b.pulses ≤ a.pulses →
      a.raw_edges = a.pulses + a.glitch_count →
      b.raw_edges = b.pulses + b.glitch_count →
      a.raw_edges = b.raw_edges →
      (a.last_edge_us = 0 ↔ b.last_edge_us = 0) →
      (a.pulses = b.pulses → a.last_edge_us ≤ b.last_edge_us) →
      (∀ u ∈ stream, a.last_edge_us < u ∧ b.last_edge_us < u) →
      (deglitch_run b stream).pulses ≤ (deglitch_run a stream).pulses ∧
        (deglitch_run a stream).glitch_count ≤ (deglitch_run b stream).glitch_count := by
  intro stream
  induction stream with
  | nil =>
      intro _ a b _ _ _ _ _ _ _ _ hpul hira hirb hraw _ _ _
      refine ⟨by simpa [deglitch_run] using hpul, ?_⟩
      simp only [deglitch_run, List.foldl_nil]
      omega
  | cons t rest ih =>
      intro hpw a b ha hb hwa hwb hma hmb hia hib hpul hira hirb hraw hiff hle hfut
      rw [List.pairwise_cons] at hpw
      obtain ⟨hhead, hrest⟩ := hpw
      have ht := hfut t (by simp)
      have hea := handle_edge_gated a t ha hwa hma
      have heb := handle_edge_gated b t hb hwb hmb
      rw [hia] at hea
      rw [hib] at heb
      have hda : deglitch_run a (t :: rest) = deglitch_run (handle_edge a t).1 rest := rfl
      have hdb : deglitch_run b (t :: rest) = deglitch_run (handle_edge b t).1 rest := rfl
      rw [hda, hdb]
      by_cases ca : a.last_edge_us ≠ 0 ∧ t - a.last_edge_us < θ
      · rw [if_pos ca] at hea
        by_cases cb : b.last_edge_us ≠ 0 ∧ t - b.last_edge_us < Θ
        · -- both reject the edge as a glitch
          rw [if_pos cb] at heb
          rw [hea, heb]
          refine ih hrest _ _ ?_ ?_ ?_ ?_ ?_ ?_ ?_ ?_ ?_ ?_ ?_ ?_ ?_ ?_ ?_
          · simpa using ha
          · simpa using hb
          · simpa using hwa
          · simpa using hwb
          · simpa using hma
          · simpa using hmb
          · dsimp only
          · dsimp only
          · simpa using hpul
          · dsimp only
            omega
          · dsimp only
            omega
          · dsimp only
            omega
          · simpa using hiff
          · dsimp only
            exact hle
          · intro u hu
            exact hfut u (List.mem_cons_of_mem t hu)
        · -- a rejects, b accepts: b strictly behind and catches up by one
          rw [if_neg cb] at heb
          rw [hea, heb]
          have hblt : b.pulses < a.pulses := by
            rcases Nat.lt_or_ge b.pulses a.pulses with hlt | hge
            · exact hlt
            · exfalso
              have heq : a.pulses = b.pulses := by omega
              have hlastle := hle heq
              rcases Decidable.not_and_iff_or_not.mp cb with hb0 | hbig
              · exact ca.1 (hiff.mpr (Decidable.not_not.mp hb0))
              · have : Θ ≤ t - b.last_edge_us := Nat.le_of_not_lt hbig
                have h2 : t - b.last_edge_us ≤ t - a.last_edge_us :=
                  Nat.sub_le_sub_left hlastle t
                omega
          refine ih hrest _ _ ?_ ?_ ?_ ?_ ?_ ?_ ?_ ?_ ?_ ?_ ?_ ?_ ?_ ?_ ?_
          · simpa using ha
          · simpa using hb
          · simpa using hwa
          · simpa using hwb
          · simpa using hma
          · simpa using hmb
          · dsimp only
          · dsimp only
          · dsimp only
            omega
          · dsimp only
            omega
          · dsimp only
            omega
          · dsimp only
            omega
          · dsimp only
            constructor
            · intro h0
              exact absurd h0 ca.1
            · intro h0
              omega
          · dsimp only
            intro heq
            omega
          · intro u hu
            refine ⟨(hfut u (List.mem_cons_of_mem t hu)).1, ?_⟩
            dsimp only
            exact hhead u hu
      · rw [if_neg ca] at hea
        by_cases cb : b.last_edge_us ≠ 0 ∧ t - b.last_edge_us < Θ
        · -- a accepts, b rejects
          rw [if_pos cb] at heb
          rw [hea, heb]
          refine ih hrest _ _ ?_ ?_ ?_ ?_ ?_ ?_ ?_ ?_ ?_ ?_ ?_ ?_ ?_ ?_ ?_
          · simpa using ha
          · simpa using hb
          · simpa using hwa
          · simpa using hwb
          · simpa using hma
          · simpa using hmb
          · dsimp only
          · dsimp only
          · dsimp only
            omega
          · dsimp only
            omega
          · dsimp only
            omega
          · dsimp only
            omega
          · dsimp only
            constructor
            · intro h0
              omega
            · intro h0
              exact absurd h0 cb.1
          · dsimp only
            intro heq
            omega
          · intro u hu
            refine ⟨?_, (hfut u (List.mem_cons_of_mem t hu)).2⟩
            dsimp only
            exact hhead u hu
        · -- both accept
          rw [if_neg cb] at heb
          rw [hea, heb]
          refine ih hrest _ _ ?_ ?_ ?_ ?_ ?_ ?_ ?_ ?_ ?_ ?_ ?_ ?_ ?_ ?_ ?_
          · simpa using ha
          · simpa using hb
          · simpa using hwa
          · simpa using hwb
          · simpa using hma
          · simpa using hmb
          · dsimp only
          · dsimp only
          · dsimp only
            omega
          · dsimp only
            omega
          · dsimp only
            omega
          · dsimp only
            omega
          · dsimp only
            constructor <;> intro h0 <;> omega
          · dsimp only
            intro heq
            exact le_refl t
          · intro u hu
            exact ⟨hhead u hu, hhead u hu⟩

/-! Claim theorems follow. -/

/-- C7: for the FreqResult and Frame queues (both use the
try-add / drop-oldest / re-add pattern modelled by queue_push), pushing
into a full queue of depth d drops the oldest element first, the length
never exceeds d, the newest element always survives as the last element,
and after pushing any sequence without draining the queue holds exactly
the last d items in push order. -/
theorem queue_drop_oldest_spec {α : Type} (d : ℕ) (q : List α) (x : α) (xs : List α)
    (hd : 1 ≤ d) (hq : q.length ≤ d) :
    (queue_push d q x).length ≤ d ∧
    (queue_push d q x).getLast? = some x ∧
    (q.length = d → queue_push d q x = q.drop 1 ++ [x]) ∧
    List.foldl (queue_push d) [] xs = xs.drop (xs.length - d) := by
  refine ⟨queue_push_length d q x hd hq, ?_, fun h => queue_push_full d q x h hd, ?_⟩
  · by_cases h : q.length < d
    · rw [queue_push_nonfull d q x h]
      exact List.getLast?_concat q
    · have he : q.length = d := by omega
      rw [queue_push_full d q x he hd]
      exact List.getLast?_concat _
  · have := queue_fold_drop d hd xs []
    simpa using this (by simp)

/-- Witness for C7 at depth 2: pushing 30 into the full queue [10, 20]
drops 10; pushing [1, 2, 3, 4] into an empty queue leaves [3, 4]. -/
theorem queue_drop_oldest_spec_witness :
    (queue_push 2 [10, 20] 30).length ≤ 2 ∧
    (queue_push 2 [10, 20] 30).getLast? = some 30 ∧
    (([10, 20] : List ℕ).length = 2 →
      queue_push 2 [10, 20] 30 = [10, 20].drop 1 ++ [30]) ∧
    List.foldl (queue_push 2) [] [1, 2, 3, 4] =
      [1, 2, 3, 4].drop ([1, 2, 3, 4].length - 2) :=
  queue_drop_oldest_spec 2 [10, 20] 30 [1, 2, 3, 4] (by decide) (by decide)

/-- C8: when the ADC read times out while a FreqResult is processed, the
pipeline still builds and enqueues a frame carrying the cached last-good
reading, leaves the cache unchanged, and ORs the flag bits returned by the
read (here ADC_TIMEOUT) into the frame flags; on a successful read the
cache is updated to the delivered value and the frame carries it, with the
returned bits (possibly ADC_SATURATED) OR-ed in likewise. -/
theorem process_result_adc_cache (cfg : Config) (freq : freq_result_t)
    (pps_flags : ℕ) (ppm : ℚ) (now : ℕ) (st : PipeSt) (raw v f2 : ℤ) (fl : ℕ) :
    (process_frequency_result cfg freq none pps_flags ppm now st).last_diode_uV
      = st.last_diode_uV ∧
    (process_frequency_result cfg freq none pps_flags ppm now st).frame_queue
      = queue_push cfg.queue_length st.frame_queue
          (build_frame cfg freq st.last_diode_uV
            ((if freq.sync_active then TERPS_FLAG_SYNC_ACTIVE else 0) |||
              TERPS_FLAG_ADC_TIMEOUT ||| pps_flags) ppm) ∧
    (build_frame cfg freq st.last_diode_uV
        ((if freq.sync_active then TERPS_FLAG_SYNC_ACTIVE else 0) |||
          TERPS_FLAG_ADC_TIMEOUT ||| pps_flags) ppm).diode_uV = st.last_diode_uV ∧
    (ads1220_read_uV (cfg.adc_gain : ℤ) cfg.avg_window st.filtered_uV (some raw) 0
        = (some v, f2, fl) →
      (process_frequency_result cfg freq (some raw) pps_flags ppm now st).last_diode_uV
        = v ∧
      (process_frequency_result cfg freq (some raw) pps_flags ppm now st).frame_queue
        = queue_push cfg.queue_length st.frame_queue
            (build_frame cfg freq v
              ((if freq.sync_active then TERPS_FLAG_SYNC_ACTIVE else 0) ||| fl |||
                pps_flags) ppm)) := by
  refine ⟨rfl, rfl, rfl, fun h => ?_⟩
  constructor
  · show (match (ads1220_read_uV (cfg.adc_gain : ℤ) cfg.avg_window st.filtered_uV
        (some raw) 0).1 with
      | some v => v
      | none => st.last_diode_uV) = v
    rw [h]
  · show queue_push cfg.queue_length st.frame_queue
        (build_frame cfg freq
          (match (ads1220_read_uV (cfg.adc_gain : ℤ) cfg.avg_window st.filtered_uV
            (some raw) 0).1 with
          | some v => v
          | none => st.last_diode_uV)
          ((if freq.sync_active then TERPS_FLAG_SYNC_ACTIVE else 0) |||
            (ads1220_read_uV (cfg.adc_gain : ℤ) cfg.avg_window st.filtered_uV
              (some raw) 0).2.2 ||| pps_flags) ppm) = _
    rw [h]

/-- Witness for C8: default config, a raw code of 1000000 converts to
15258 uV with no saturation flag; the cache picks up the value. -/
theorem process_result_adc_cache_witness :
    ads1220_read_uV ((terps_default_config).adc_gain : ℤ)
        (terps_default_config).avg_window 0 (some 1000000) 0 = (some 15258, 15258, 0) ∧
    (process_frequency_result terps_default_config default_freq_result (some 1000000)
        0 0 0 pipe_st0).last_diode_uV = 15258 := by
  constructor
  · decide
  · exact ((process_result_adc_cache terps_default_config default_freq_result 0 0 0
      pipe_st0 1000000 15258 15258 0).2.2.2 (by decide)).1

/-- C1 (code bug): on the S4 scenario — sync rising begins a forced
window, sync falling ends it — the emitted FreqResult has
sync_active = false, because start_window_locked resets sync_forced to
false immediately after handle_sync_locked set it; the spec requires
sync_active = true. -/
theorem sync_forced_window_emits_sync_inactive :
    ((edge_run terps_default_config c1_events).2.map freq_result_t.sync_active)
      = [false] ∧
    ((edge_run terps_default_config c1_events).2.map freq_result_t.pulses) = [2] := by
  constructor <;> decide

/-- C2 counterexample: a reachable trace of three emitted windows leaves
the stored running estimate at 1 500 000 Hz (> 10⁶), and the last emitted
FreqResult carries f_hz = 1 500 000 ∉ [1, 10⁶]. -/
theorem estimate_exceeds_bound_counterexample :
    (edge_run terps_default_config c2_events).1.freq_estimate_hz = 1500000 ∧
    ((edge_run terps_default_config c2_events).2.map freq_result_t.f_hz).getLast?
      = some 1500000 ∧
    ¬((1500000 : ℚ) ≤ 1000000) := by
  refine ⟨by decide, by decide, by norm_num⟩

/-- C2 amended: every emission stores the unclamped corrected frequency
as the running estimate (equal to the emitted f_hz), and the clamp to
[1, 10⁶] is applied to the estimate only where it is used — the
min-interval (and target-edge) derivation; clamp_freq always lands in
[1, 10⁶]. -/
theorem estimate_clamped_only_at_use (v : ℚ) (s : FreqState) (tf : Bool)
    (s2 : FreqState) (r : freq_result_t)
    (h : enqueue_result s tf = (s2, some r)) :
    (1 ≤ clamp_freq v ∧ clamp_freq v ≤ 1000000) ∧
    s2.freq_estimate_hz = r.f_hz ∧
    s2.min_interval_us = min_interval_of r.f_hz s.min_interval_frac ∧
    min_interval_of r.f_hz s.min_interval_frac
      = min_interval_of (clamp_freq r.f_hz) s.min_interval_frac := by
  obtain ⟨-, -, -, -, -, -, -, -, -, hest, hmin⟩ :=
    enqueue_result_some_fields s tf s2 r h
  refine ⟨clamp_freq_bounds v, hest, hmin, ?_⟩
  simp only [min_interval_of, clamp_freq_idem]

/-- Witness for C2 amended: emitting from c2_witness_state stores the
unclamped estimate 100000 and recomputes min_interval_us from it. -/
theorem estimate_clamped_only_at_use_witness :
    (1 ≤ clamp_freq 5 ∧ clamp_freq 5 ≤ 1000000) ∧
    c2_witness_after.freq_estimate_hz = c2_witness_result.f_hz ∧
    c2_witness_after.min_interval_us
      = min_interval_of c2_witness_result.f_hz c2_witness_state.min_interval_frac ∧
    min_interval_of c2_witness_result.f_hz c2_witness_state.min_interval_frac
      = min_interval_of (clamp_freq c2_witness_result.f_hz)
          c2_witness_state.min_interval_frac :=
  estimate_clamped_only_at_use 5 c2_witness_state false c2_witness_after
    c2_witness_result (by decide)

/-- C3 counterexample: the first PPS edge after init does not record the
activity timestamp — on_edge(5) from the freshly initialised state leaves
last_tick_us at its init value 100, not 5. -/
theorem first_edge_keeps_last_activity :
    (pps_cal_on_pps_edge (pps_cal_init 100) 5).last_tick_us = 100 ∧
    (100 : ℕ) ≠ 5 := by
  constructor <;> decide

/-- C3 amended: on_edge(t) records last_activity_us = t exactly when a
previous edge was recorded (last_edge_us ≠ 0); the first edge leaves it
unchanged; tick() resets locked, correction_ppm and lock_counter
precisely when now − last_activity_us exceeds 3 000 000 us. -/
theorem pps_activity_and_stale_reset (s : PpsState) (t now : ℕ) :
    (s.last_edge_us ≠ 0 → (pps_cal_on_pps_edge s t).last_tick_us = t) ∧
    (s.last_edge_us = 0 → (pps_cal_on_pps_edge s t).last_tick_us = s.last_tick_us) ∧
    (3000000 < now - s.last_tick_us →
      pps_cal_tick s now
        = { s with locked := false, correction_ppm := 0, lock_counter := 0 }) ∧
    (now - s.last_tick_us ≤ 3000000 → pps_cal_tick s now = s) := by
  refine ⟨fun h => ?_, fun h => ?_, fun h => ?_, fun h => ?_⟩
  · unfold pps_cal_on_pps_edge
    simp [h]
  · unfold pps_cal_on_pps_edge
    simp [h]
  · unfold pps_cal_tick
    simp [h]
  · unfold pps_cal_tick
    rw [if_neg (by omega)]

/-- Witness for C3 amended, at concrete states: an edge with a previous
edge recorded updates last_tick_us; an edge from init does not; a stale
tick resets; a fresh tick is a no-op. -/
theorem pps_activity_and_stale_reset_witness :
    (pps_cal_on_pps_edge pps_witness_state 2000003).last_tick_us = 2000003 ∧
    (pps_cal_on_pps_edge (pps_cal_init 100) 5).last_tick_us
      = (pps_cal_init 100).last_tick_us ∧
    pps_cal_tick pps_witness_state 9999999
      = { pps_witness_state with
          locked := false, correction_ppm := 0, lock_counter := 0 } ∧
    pps_cal_tick pps_witness_state 2000000 = pps_witness_state :=
  ⟨(pps_activity_and_stale_reset pps_witness_state 2000003 0).1 (by decide),
    (pps_activity_and_stale_reset (pps_cal_init 100) 5 0).2.1 (by decide),
    (pps_activity_and_stale_reset pps_witness_state 0 9999999).2.2.1 (by decide),
    (pps_activity_and_stale_reset pps_witness_state 0 2000000).2.2.2 (by decide)⟩

/-- C4: on every PPS edge that yields an interval error (a previous edge
exists), the lock counter is incremented when |e_ppm| < 5 (saturating at
5) and decremented otherwise (floor 0), and after every sequence of PPS
operations from init the state satisfies lock_counter ∈ [0, 5] and
locked = (lock_counter ≥ 3). -/
theorem pps_lock_counter_spec (now0 : ℕ) (evs : List PpsEv) (s : PpsState)
    (t : ℕ) (hc : s.lock_counter ≤ 5) (he : s.last_edge_us ≠ 0) :
    ((pps_run now0 evs).lock_counter ≤ 5 ∧
      ((pps_run now0 evs).locked = true ↔ 3 ≤ (pps_run now0 evs).lock_counter)) ∧
    (pps_cal_on_pps_edge s t).lock_counter =
      (if |pps_error s.last_edge_us t| < 5 then min (s.lock_counter + 1) 5
        else s.lock_counter - 1) := by
  refine ⟨pps_run_inv now0 evs, ?_⟩
  unfold pps_cal_on_pps_edge
  dsimp only
  rw [if_pos he]
  dsimp only
  split_ifs <;> omega

/-- Witness for C4: the empty run, and one edge from a state with one
prior edge at 1 000 000 — the interval 1 000 003 gives error 3 ppm,
incrementing the counter from 0 to 1. -/
theorem pps_lock_counter_spec_witness :
    (((pps_run 0 []).lock_counter ≤ 5 ∧
      ((pps_run 0 []).locked = true ↔ 3 ≤ (pps_run 0 []).lock_counter)) ∧
    (pps_cal_on_pps_edge pps_witness_state 2000003).lock_counter =
      (if |pps_error pps_witness_state.last_edge_us 2000003| < 5 then
        min (pps_witness_state.lock_counter + 1) 5
      else pps_witness_state.lock_counter - 1)) ∧
    (pps_cal_on_pps_edge pps_witness_state 2000003).lock_counter = 1 :=
  ⟨pps_lock_counter_spec 0 [] pps_witness_state 2000003 (by decide) (by decide),
    by decide⟩

/-- C5: every FreqResult actually enqueued over any event sequence has
start_us < end_us, pulses ≥ 1, raw_pulses ≥ pulses, and (in particular
when the window ended by target-reach in Reciprocal mode with
timeout = false) glitch_count = raw_pulses − pulses. -/
theorem emitted_result_invariants (cfg : Config) (evs : List EdgeEv)
    (r : freq_result_t) (hr : r ∈ (edge_run cfg evs).2) :
    r.start_us < r.end_us ∧ 1 ≤ r.pulses ∧ r.pulses ≤ r.raw_pulses ∧
      (r.mode = Mode.recip ∧ r.timeout = false →
        r.glitch_count = r.raw_pulses - r.pulses) := by
  obtain ⟨g1, g2, g3, g4⟩ := (edge_run_good cfg evs).2 r hr
  exact ⟨g1, g2, g3, fun _ => g4⟩

/-- Witness for C5: the single result emitted by c5_events satisfies the
invariants. -/
theorem emitted_result_invariants_witness :
    c5_result ∈ (edge_run terps_default_config c5_events).2 ∧
    (c5_result.start_us < c5_result.end_us ∧ 1 ≤ c5_result.pulses ∧
      c5_result.pulses ≤ c5_result.raw_pulses ∧
      (c5_result.mode = Mode.recip ∧ c5_result.timeout = false →
        c5_result.glitch_count = c5_result.raw_pulses - c5_result.pulses)) :=
  ⟨by decide,
    emitted_result_invariants terps_default_config c5_events c5_result (by decide)⟩

/-- C10: freq_counter_start_window overwrites min_interval_frac and
timebase_ppm with the init-time configuration values before arming, so
values installed by freq_counter_update_timebase_ppm or
freq_counter_set_min_interval do not persist into the newly armed window,
and the pipeline rearm in process_frequency_result restores timebase_ppm
to the configured default. -/
theorem start_window_resets_config_values (cfg : Config) (mode : Mode)
    (tau_ms now : ℕ) (s : FreqState) (ppm frac : ℚ) (freq : freq_result_t)
    (drdy : Option ℤ) (pps_flags : ℕ) (ppm2 : ℚ) (now2 : ℕ) (st : PipeSt) :
    (freq_counter_start_window cfg mode tau_ms now
        (freq_counter_set_min_interval frac
          (freq_counter_update_timebase_ppm ppm s))).min_interval_frac
      = cfg.min_interval_frac ∧
    (freq_counter_start_window cfg mode tau_ms now
        (freq_counter_set_min_interval frac
          (freq_counter_update_timebase_ppm ppm s))).timebase_ppm
      = cfg.timebase_ppm ∧
    (freq_counter_start_window cfg mode tau_ms now s).min_interval_frac
      = cfg.min_interval_frac ∧
    (freq_counter_start_window cfg mode tau_ms now s).timebase_ppm
      = cfg.timebase_ppm ∧
    (process_frequency_result cfg freq drdy pps_flags ppm2 now2 st).edge.timebase_ppm
      = cfg.timebase_ppm := by
  refine ⟨(start_window_config_fields _ _ _ _ _).1,
    (start_window_config_fields _ _ _ _ _).2,
    (start_window_config_fields _ _ _ _ _).1,
    (start_window_config_fields _ _ _ _ _).2, ?_⟩
  show (freq_counter_start_window cfg cfg.mode cfg.tau_ms now2 st.edge).timebase_ppm
    = cfg.timebase_ppm
  exact (start_window_config_fields _ _ _ _ _).2

set_option maxRecDepth 8192 in
/-- C6: the binary encoding of any frame is the header 0x55 0xAA 0x13,
then the 19-byte little-endian payload ts_ms:u32, f_hz_x1e4:i32,
tau_ms:u16, diode_uV:i32, adc_gain:u8, flags:u8, ppm_corr_x1e2:i16,
mode:u8, then the little-endian CRC-16-CCITT of the payload (init 0xFFFF,
polynomial 0x1021, no reflection, no xor-out); checked concretely on the
S5 frame of the spec. -/
theorem send_frame_binary_layout (f : terps_frame_t) :
    usb_cdc_send_frame_binary f =
      [0x55, 0xAA, 0x13] ++
        (le_bytes 4 f.ts_ms ++ int_le_bytes 4 f.f_hz_x1e4 ++ le_bytes 2 f.tau_ms ++
          int_le_bytes 4 f.diode_uV ++ [f.adc_gain % 256, f.flags % 256] ++
          int_le_bytes 2 f.ppm_corr_x1e2 ++ [f.mode % 256]) ++
        le_bytes 2 (crc16_ccitt (frame_payload f)) ∧
    (frame_payload f).length = 19 ∧
    crc16_ccitt [] = 0xFFFF ∧
    usb_cdc_send_frame_binary s5_frame =
      [0x55, 0xAA, 0x13, 57, 48, 0, 0, 177, 104, 222, 58, 100, 0, 199, 207, 255,
        255, 16, 5, 214, 255, 1, 43, 86] := by
  refine ⟨?_, frame_payload_length f, rfl, by decide⟩
  show [0x55, 0xAA, (frame_payload f).length] ++ frame_payload f ++
      le_bytes 2 (crc16_ccitt (frame_payload f)) = _
  rw [frame_payload_length]
  rfl

/-- C9: over one armed window, a larger min_interval_frac derives a
larger min_interval_us, and running the deglitch-and-count logic of
handle_edge_locked over the identical (strictly increasing, positive)
edge stream with the larger interval yields at most as many pulses and at
least as many glitches. -/
theorem deglitch_monotone (est f1 f2 : ℚ) (now tau : ℕ) (stream : List ℕ)
    (h1 : 0 < f1) (h12 : f1 ≤ f2) (hpos : ∀ u ∈ stream, 0 < u)
    (hsort : List.Pairwise (fun x y => x < y) stream) :
    min_interval_of est f1 ≤ min_interval_of est f2 ∧
    (deglitch_run (armed_gated now (min_interval_of est f2) tau) stream).pulses ≤
      (deglitch_run (armed_gated now (min_interval_of est f1) tau) stream).pulses ∧
    (deglitch_run (armed_gated now (min_interval_of est f1) tau) stream).glitch_count ≤
      (deglitch_run (armed_gated now (min_interval_of est f2) tau) stream).glitch_count := by
  have hmono := min_interval_of_mono est f1 f2 h1 h12
  obtain ⟨m1, a1, w1, i1, p1, r1, g1, l1⟩ :=
    armed_gated_fields now (min_interval_of est f1) tau
  obtain ⟨m2, a2, w2, i2, p2, r2, g2, l2⟩ :=
    armed_gated_fields now (min_interval_of est f2) tau
  have core := deglitch_mono_core (min_interval_of est f1) (min_interval_of est f2)
    hmono stream hsort
    (armed_gated now (min_interval_of est f1) tau)
    (armed_gated now (min_interval_of est f2) tau)
    a1 a2 w1 w2 m1 m2 i1 i2
    (by omega) (by omega) (by omega) (by omega)
    (by rw [l1, l2])
    (by intro _; rw [l1, l2])
    (by
      intro u hu
      rw [l1, l2]
      exact ⟨hpos u hu, hpos u hu⟩)
  exact ⟨hmono, core.1, core.2⟩

/-- Witness for C9: stream [100, 105, 200] with fractions 1/4 and 1/2 of
the 30 kHz default estimate (intervals 8 and 16 us): both runs glitch the
edge at 105 and keep 2 pulses. -/
theorem deglitch_monotone_witness :
    (0 : ℚ) < 1 / 4 ∧
    (min_interval_of 30000 (1 / 4) ≤ min_interval_of 30000 (1 / 2) ∧
    (deglitch_run (armed_gated 0 (min_interval_of 30000 (1 / 2)) 100)
        [100, 105, 200]).pulses ≤
      (deglitch_run (armed_gated 0 (min_interval_of 30000 (1 / 4)) 100)
        [100, 105, 200]).pulses ∧
    (deglitch_run (armed_gated 0 (min_interval_of 30000 (1 / 4)) 100)
        [100, 105, 200]).glitch_count ≤
      (deglitch_run (armed_gated 0 (min_interval_of 30000 (1 / 2)) 100)
        [100, 105, 200]).glitch_count) ∧
    (deglitch_run (armed_gated 0 (min_interval_of 30000 (1 / 4)) 100)
        [100, 105, 200]).pulses = 2 :=
  ⟨by norm_num,
    deglitch_monotone 30000 (1 / 4) (1 / 2) 0 100 [100, 105, 200]
      (by norm_num) (by norm_num) (by decide) (by decide),
    by decide⟩

end Terps
